import Mathlib

/-!
Verification of the MSF-Time-Lib receiver (src/src/MSF-Time-Lib.h).

The C++ source is shallowly embedded: packed byte arrays become `List Nat`
(each element a byte value), the template parameter `SAMPLE_RATE_MS` becomes
an explicit `Nat` argument `S`, the rolling-buffer state becomes an explicit
state record, and the real-time loops are abstracted over the sequence of
values they would observe (the sampled carrier values, the per-window vote
counters, the scores paired with timestamps, the successive `get_time`
results).  Machine integers: the C++ `int` scores are modelled as `Int`;
byte contents are `Nat` (kept below 256 by construction); the BCD decoder
accumulates only non-negative values bounded far below any overflow, so it
is modelled on `Nat`.
-/

/-! ## Bit-packed storage (MSF-Time-Lib.h lines 84-95)

`writeBit(uint8_t* array, int index, bool value)`:
  if (value) array[index / 8] |= (1 << (index % 8));
  else       array[index / 8] &= ~(1 << (index % 8));
The `&= ~(1 << k)` on a `uint8_t` keeps the low 8 bits of the complement,
i.e. masks with `255 ^^^ (1 <<< k)`.

`readBit(const uint8_t* array, int index)`:
  return (array[index / 8] >> (index % 8)) & 1;
-/

def writeBit (array : List Nat) (index : Nat) (value : Bool) : List Nat :=
  if value then
    array.set (index / 8) (array.getD (index / 8) 0 ||| (1 <<< (index % 8)))
  else
    array.set (index / 8) (array.getD (index / 8) 0 &&& (255 ^^^ (1 <<< (index % 8))))

def readBit (array : List Nat) (index : Nat) : Bool :=
  ((array.getD (index / 8) 0 >>> (index % 8)) &&& 1) == 1

theorem beq_one_eq_decide (x : Nat) : (x == 1) = decide (x = 1) := by
  by_cases h : x = 1 <;> simp [h]

theorem writeBit_true (array : List Nat) (index : Nat) :
    writeBit array index true
      = array.set (index / 8) (array.getD (index / 8) 0 ||| (1 <<< (index % 8))) := rfl

theorem writeBit_false (array : List Nat) (index : Nat) :
    writeBit array index false
      = array.set (index / 8) (array.getD (index / 8) 0 &&& (255 ^^^ (1 <<< (index % 8)))) := rfl

theorem readBit_eq_testBit (array : List Nat) (index : Nat) :
    readBit array index = (array.getD (index / 8) 0).testBit (index % 8) := by
  simp only [readBit, Nat.testBit_to_div_mod, Nat.shiftRight_eq_div_pow, Nat.and_one_is_mod,
    beq_one_eq_decide]

theorem writeBit_length (array : List Nat) (index : Nat) (value : Bool) :
    (writeBit array index value).length = array.length := by
  unfold writeBit
  split <;> simp

theorem getD_set_ne (l : List Nat) (i j : Nat) (x : Nat) (h : j ≠ i) :
    (l.set i x).getD j 0 = l.getD j 0 := by
  simp [List.getD_eq_getElem?_getD, List.getElem?_set_ne (Ne.symm h)]

theorem getD_set_self (l : List Nat) (i : Nat) (x : Nat) (h : i < l.length) :
    (l.set i x).getD i 0 = x := by
  simp [List.getD_eq_getElem?_getD, List.getElem?_set_self, h]

theorem testBit_or_shift (b s t : Nat) :
    (b ||| (1 <<< s)).testBit t = (b.testBit t || (t == s)) := by
  rw [Nat.testBit_or, Nat.shiftLeft_eq, one_mul, Nat.testBit_two_pow]
  by_cases h : s = t
  · simp [h]
  · simp [h, Ne.symm h]

theorem testBit_and_mask (b s t : Nat) (ht : t < 8) :
    (b &&& (255 ^^^ (1 <<< s))).testBit t = (b.testBit t && !(t == s)) := by
  rw [Nat.testBit_and, Nat.testBit_xor, Nat.shiftLeft_eq, one_mul, Nat.testBit_two_pow]
  have h255 : (255 : Nat) = 2 ^ 8 - 1 := by norm_num
  rw [h255, Nat.testBit_two_pow_sub_one]
  by_cases h : s = t
  · simp [h, ht]
  · simp [h, Ne.symm h, ht]

/-- Pointwise description of `writeBit`: reading position `j` after writing
position `k` gives the written value at `j = k` and is otherwise unchanged.
Needs `k` to address a byte actually inside the array. -/
theorem readBit_writeBit (array : List Nat) (k j : Nat) (v : Bool)
    (hk : k < 8 * array.length) :
    readBit (writeBit array k v) j = if j = k then v else readBit array j := by
  have hk8 : k / 8 < array.length := by omega
  by_cases hbyte : j / 8 = k / 8
  · by_cases hjk : j = k
    · subst hjk
      rw [if_pos rfl, readBit_eq_testBit]
      cases v
      · rw [writeBit_false, getD_set_self _ _ _ hk8,
          testBit_and_mask _ _ _ (Nat.mod_lt _ (by norm_num))]
        simp
      · rw [writeBit_true, getD_set_self _ _ _ hk8, testBit_or_shift]
        simp
    · have hmod : j % 8 ≠ k % 8 := by omega
      rw [if_neg hjk, readBit_eq_testBit, readBit_eq_testBit, hbyte]
      cases v
      · rw [writeBit_false, getD_set_self _ _ _ hk8,
          testBit_and_mask _ _ _ (Nat.mod_lt _ (by norm_num))]
        simp [hmod]
      · rw [writeBit_true, getD_set_self _ _ _ hk8, testBit_or_shift]
        simp [hmod]
  · -- different byte: the set does not touch byte j / 8
    have hjk : j ≠ k := by omega
    rw [if_neg hjk, readBit_eq_testBit, readBit_eq_testBit]
    cases v
    · rw [writeBit_false, getD_set_ne _ _ _ _ hbyte]
    · rw [writeBit_true, getD_set_ne _ _ _ _ hbyte]

/-- The freshly reset buffer (`memset(buffer, 0xFF, n)`) reads as all ones at
every position that addresses a stored byte. -/
theorem readBit_replicate_255 (n : Nat) (p : Nat) (hp : p < 8 * n) :
    readBit (List.replicate n 255) p = true := by
  have hp8 : p / 8 < n := by omega
  rw [readBit_eq_testBit]
  have : (List.replicate n 255).getD (p / 8) 0 = 255 := by
    simp [List.getD_eq_getElem?_getD, List.getElem?_replicate, hp8]
  rw [this]
  have h255 : (255 : Nat) = 2 ^ 8 - 1 := by norm_num
  rw [h255, Nat.testBit_two_pow_sub_one]
  have : p % 8 < 8 := Nat.mod_lt _ (by norm_num)
  simp [this]

/-- C7: for every packed bit array, writing bit `k` then reading bit `k`
returns the written value, and reading any other position `j` is unchanged
by the write (`MSFReceiver::writeBit` / `MSFReceiver::readBit`). -/
theorem writeBit_readBit_roundtrip (array : List Nat) (k j : Nat) (v : Bool)
    (hk : k < 8 * array.length) (hj : j < 8 * array.length) (hne : j ≠ k) :
    readBit (writeBit array k v) k = v ∧
    readBit (writeBit array k v) j = readBit array j := by
  constructor
  · rw [readBit_writeBit _ _ _ _ hk]
    simp
  · rw [readBit_writeBit _ _ _ _ hk]
    simp [hne]

/-- Witness for C7 at a concrete array and positions. -/
theorem writeBit_readBit_roundtrip_witness :
    readBit (writeBit [0, 0] 3 true) 3 = true ∧
    readBit (writeBit [0, 0] 3 true) 10 = readBit [0, 0] 10 :=
  writeBit_readBit_roundtrip [0, 0] 3 10 true (by norm_num) (by norm_num) (by norm_num)

/-! ## Decoded result record (MSF-Time-Lib.h lines 11-22, struct MSFData)

In the source, `year` is a `uint32_t` initialized to 2000 and the decoder
adds the raw BCD value to it; `second` is a `const uint8_t` equal to 0. -/

structure MSFData where
  year : Nat
  month : Nat
  day : Nat
  hour : Nat
  minute : Nat
  second : Nat
  dayOfTheWeek : Nat
  checksumPassed : Bool

/-! ## BCD decoding (MSF-Time-Lib.h lines 191-198)

`decodeBCD(int startIdx, int count, const int* weights)` loops `i` from 0 to
`count - 1`, breaks when `startIdx + i >= 60`, and adds `weights[i]` whenever
bit `startIdx + i` of the A register is set.  The loop is embedded as a
recursion on the number of remaining iterations. -/

def decodeBCDGo (packedABits : List Nat) (startIdx : Nat) (weights : List Nat) :
    Nat → Nat → Nat → Nat
  | 0, _, val => val
  | remaining + 1, i, val =>
    if startIdx + i ≥ 60 then val
    else
      decodeBCDGo packedABits startIdx weights remaining (i + 1)
        (if readBit packedABits (startIdx + i) then val + weights.getD i 0 else val)

def decodeBCD (packedABits : List Nat) (startIdx count : Nat) (weights : List Nat) : Nat :=
  decodeBCDGo packedABits startIdx weights count 0 0

/-! ## Parity check (MSF-Time-Lib.h lines 205-212)

`checkParity(int startIdx, int count, int parityBitIdx)` counts the set bits
of the A register in `[startIdx, startIdx + count)`, adds the B-register
parity bit, and requires the total to be odd. -/

def checkParity (packedABits packedBBits : List Nat)
    (startIdx count parityBitIdx : Nat) : Bool :=
  let ones := (List.range count).foldl
    (fun ones i => if readBit packedABits (startIdx + i) then ones + 1 else ones) 0
  let ones := if readBit packedBBits parityBitIdx then ones + 1 else ones
  ones % 2 != 0

/-! ## Decode and validate stage of get_time (MSF-Time-Lib.h lines 440-481)

The per-second sampling loop fills `packedABits` / `packedBBits`; the decode
stage below is a pure function of those two packed registers.  The weight
tables are the `static const int` arrays `wYear` .. `wMin`. -/

def wYear : List Nat := [80, 40, 20, 10, 8, 4, 2, 1]

def wMonth : List Nat := [10, 8, 4, 2, 1]

def wDay : List Nat := [20, 10, 8, 4, 2, 1]

def wDOW : List Nat := [4, 2, 1]

def wHour : List Nat := [20, 10, 8, 4, 2, 1]

def wMin : List Nat := [40, 20, 10, 8, 4, 2, 1]

def get_timeDecode (packedABits packedBBits : List Nat) : MSFData :=
  let rawYear := decodeBCD packedABits 17 8 wYear
  let month := decodeBCD packedABits 25 5 wMonth
  let day := decodeBCD packedABits 30 6 wDay
  let hour := decodeBCD packedABits 39 6 wHour
  let minute := decodeBCD packedABits 45 7 wMin
  let dayOfTheWeek := decodeBCD packedABits 36 3 wDOW + 1
  let pYear := checkParity packedABits packedBBits 17 8 54
  let pDate := checkParity packedABits packedBBits 25 11 55
  let pDOW := checkParity packedABits packedBBits 36 3 56
  let pTime := checkParity packedABits packedBBits 39 13 57
  let sane := decide (1 ≤ month ∧ month ≤ 12 ∧ 1 ≤ day ∧ day ≤ 31 ∧
    hour ≤ 23 ∧ minute ≤ 59)
  { year := 2000 + rawYear
    month := month
    day := day
    hour := hour
    minute := minute
    second := 0
    dayOfTheWeek := dayOfTheWeek
    checksumPassed := pYear && pDate && pDOW && pTime && sane }

/-! ## Per-second bit vote (MSF-Time-Lib.h lines 390-409)

At the end of each second the accumulated window counters are turned into a
stored bit: the percentage of high samples (0 when no sample fell inside the
window) must strictly exceed 60. -/

def bitFromVoteWindow (countOfHighSamples totalCountOfSamples : Nat) : Bool :=
  let percentageOfHighSamples :=
    if totalCountOfSamples > 0 then countOfHighSamples * 100 / totalCountOfSamples else 0
  decide (percentageOfHighSamples > 60)

/-! ## Retry wrapper (MSF-Time-Lib.h lines 488-500)

`get_time_with_retry` loops forever, calling `get_time` and returning the
first result whose checksum passed.  The loop is embedded over the (finite
prefix of the) stream of successive `get_time` results; `none` models the
case where no result in the stream ever passes (the real loop keeps going). -/

def get_time_with_retryModel : List MSFData → Option MSFData
  | [] => none
  | res :: rest => if res.checksumPassed then some res else get_time_with_retryModel rest

/-! ## Parity loop versus direct bit count -/

theorem parity_foldl_count (packedABits : List Nat) (startIdx : Nat) (c : Nat) :
    ∀ acc : Nat,
      (List.range c).foldl
          (fun ones i => if readBit packedABits (startIdx + i) then ones + 1 else ones) acc
        = acc + (List.range c).countP (fun i => readBit packedABits (startIdx + i)) := by
  induction c with
  | zero => intro acc; simp
  | succ n ih =>
    intro acc
    rw [List.range_succ, List.foldl_append, List.countP_append, ih]
    by_cases h : readBit packedABits (startIdx + n) <;> simp [h] <;> omega

theorem checkParity_iff_odd (packedABits packedBBits : List Nat)
    (startIdx count parityBitIdx : Nat) :
    checkParity packedABits packedBBits startIdx count parityBitIdx = true ↔
      Odd ((List.range count).countP (fun i => readBit packedABits (startIdx + i))
        + (if readBit packedBBits parityBitIdx then 1 else 0)) := by
  unfold checkParity
  rw [parity_foldl_count]
  rw [Nat.odd_iff]
  by_cases h : readBit packedBBits parityBitIdx <;> simp [h] <;> omega

/-- C2: the decode stage of get_time reports `checksumPassed = true` exactly
when all four odd-parity groups (year A[17..24] with B[54], date A[25..35]
with B[55], day-of-week A[36..38] with B[56], time A[39..51] with B[57]) have
an odd total of 1-bits and the sanity predicate holds on the decoded fields. -/
theorem get_time_checksum_iff (A B : List Nat) :
    (get_timeDecode A B).checksumPassed = true ↔
      (Odd ((List.range 8).countP (fun i => readBit A (17 + i))
          + (if readBit B 54 then 1 else 0)) ∧
       Odd ((List.range 11).countP (fun i => readBit A (25 + i))
          + (if readBit B 55 then 1 else 0)) ∧
       Odd ((List.range 3).countP (fun i => readBit A (36 + i))
          + (if readBit B 56 then 1 else 0)) ∧
       Odd ((List.range 13).countP (fun i => readBit A (39 + i))
          + (if readBit B 57 then 1 else 0))) ∧
      (1 ≤ (get_timeDecode A B).month ∧ (get_timeDecode A B).month ≤ 12 ∧
       1 ≤ (get_timeDecode A B).day ∧ (get_timeDecode A B).day ≤ 31 ∧
       (get_timeDecode A B).hour ≤ 23 ∧ (get_timeDecode A B).minute ≤ 59) := by
  show (get_timeDecode A B).checksumPassed = true ↔ _
  simp only [get_timeDecode, Bool.and_eq_true, decide_eq_true_eq, checkParity_iff_odd]
  tauto

/-! ## The BCD loop as a weighted sum -/

theorem decodeBCDGo_no_break (A : List Nat) (s : Nat) (w : List Nat) :
    ∀ (r i val : Nat), s + i + r ≤ 60 →
      decodeBCDGo A s w r i val
        = val + ((List.range r).map
            (fun t => if readBit A (s + (i + t)) then w.getD (i + t) 0 else 0)).sum := by
  intro r
  induction r with
  | zero => intro i val h; simp [decodeBCDGo]
  | succ n ih =>
    intro i val h
    rw [decodeBCDGo]
    rw [if_neg (by omega)]
    rw [ih (i + 1) _ (by omega)]
    rw [List.range_succ_eq_map]
    rw [List.map_cons, List.map_map, List.sum_cons]
    have hmap : ∀ t ∈ List.range n,
        ((fun t => if readBit A (s + (i + t)) then w.getD (i + t) 0 else 0) ∘ Nat.succ) t
          = (if readBit A (s + (i + 1 + t)) then w.getD (i + 1 + t) 0 else 0) := by
      intro t _
      have h1 : i + (t + 1) = i + 1 + t := by omega
      simp [Function.comp, Nat.succ_eq_add_one, h1]
    rw [List.map_congr_left hmap]
    by_cases hb : readBit A (s + i)
    · simp [hb]
      omega
    · simp [hb]

theorem decodeBCD_eq_sum (A : List Nat) (s c : Nat) (w : List Nat) (h : s + c ≤ 60) :
    decodeBCD A s c w
      = ((List.range c).map (fun t => if readBit A (s + t) then w.getD t 0 else 0)).sum := by
  unfold decodeBCD
  rw [decodeBCDGo_no_break A s w c 0 0 (by omega)]
  simp

/-- C3: each calendar field decoded by get_time is the sum of the declared
weights at the A-bit positions that are set; the returned year is that raw
sum offset by 2000 and the day of the week is the raw sum plus one. -/
theorem get_time_decode_fields (A B : List Nat) :
    (get_timeDecode A B).year
        = 2000 + ((if readBit A 17 then 80 else 0) + (if readBit A 18 then 40 else 0)
          + (if readBit A 19 then 20 else 0) + (if readBit A 20 then 10 else 0)
          + (if readBit A 21 then 8 else 0) + (if readBit A 22 then 4 else 0)
          + (if readBit A 23 then 2 else 0) + (if readBit A 24 then 1 else 0)) ∧
    (get_timeDecode A B).month
        = (if readBit A 25 then 10 else 0) + (if readBit A 26 then 8 else 0)
          + (if readBit A 27 then 4 else 0) + (if readBit A 28 then 2 else 0)
          + (if readBit A 29 then 1 else 0) ∧
    (get_timeDecode A B).day
        = (if readBit A 30 then 20 else 0) + (if readBit A 31 then 10 else 0)
          + (if readBit A 32 then 8 else 0) + (if readBit A 33 then 4 else 0)
          + (if readBit A 34 then 2 else 0) + (if readBit A 35 then 1 else 0) ∧
    (get_timeDecode A B).hour
        = (if readBit A 39 then 20 else 0) + (if readBit A 40 then 10 else 0)
          + (if readBit A 41 then 8 else 0) + (if readBit A 42 then 4 else 0)
          + (if readBit A 43 then 2 else 0) + (if readBit A 44 then 1 else 0) ∧
    (get_timeDecode A B).minute
        = (if readBit A 45 then 40 else 0) + (if readBit A 46 then 20 else 0)
          + (if readBit A 47 then 10 else 0) + (if readBit A 48 then 8 else 0)
          + (if readBit A 49 then 4 else 0) + (if readBit A 50 then 2 else 0)
          + (if readBit A 51 then 1 else 0) ∧
    (get_timeDecode A B).dayOfTheWeek
        = ((if readBit A 36 then 4 else 0) + (if readBit A 37 then 2 else 0)
          + (if readBit A 38 then 1 else 0)) + 1 := by
  refine ⟨?_, ?_, ?_, ?_, ?_, ?_⟩ <;>
    simp only [get_timeDecode] <;>
    rw [decodeBCD_eq_sum _ _ _ _ (by norm_num)] <;>
    simp [wYear, wMonth, wDay, wDOW, wHour, wMin, List.range_succ] <;>
    ring

/-- C5: a stored payload bit is true exactly when the integer percentage of
high samples in its vote window (0 when the window saw no sample) strictly
exceeds 60; a 55 percent ratio yields false and a 61 percent ratio true. -/
theorem bitFromVoteWindow_spec (countOfHighSamples totalCountOfSamples : Nat)
    (ht : 0 < totalCountOfSamples) :
    bitFromVoteWindow countOfHighSamples totalCountOfSamples
        = decide (100 * countOfHighSamples / totalCountOfSamples > 60) ∧
    bitFromVoteWindow countOfHighSamples 0 = false ∧
    (100 * countOfHighSamples = 55 * totalCountOfSamples →
        bitFromVoteWindow countOfHighSamples totalCountOfSamples = false) ∧
    (100 * countOfHighSamples = 61 * totalCountOfSamples →
        bitFromVoteWindow countOfHighSamples totalCountOfSamples = true) := by
  have hmul : countOfHighSamples * 100 = 100 * countOfHighSamples := Nat.mul_comm _ _
  refine ⟨?_, ?_, ?_, ?_⟩
  · simp [bitFromVoteWindow, ht, hmul]
  · simp [bitFromVoteWindow]
  · intro h
    have hdiv : countOfHighSamples * 100 / totalCountOfSamples = 55 := by
      rw [hmul, h, Nat.mul_div_cancel _ ht]
    simp [bitFromVoteWindow, ht, hdiv]
  · intro h
    have hdiv : countOfHighSamples * 100 / totalCountOfSamples = 61 := by
      rw [hmul, h, Nat.mul_div_cancel _ ht]
    simp [bitFromVoteWindow, ht, hdiv]

/-- Witness for C5 at 55 of 100 samples and 61 of 100 samples. -/
theorem bitFromVoteWindow_spec_witness :
    bitFromVoteWindow 55 100 = false ∧ bitFromVoteWindow 61 100 = true :=
  ⟨(bitFromVoteWindow_spec 55 100 (by norm_num)).2.2.1 (by norm_num),
   (bitFromVoteWindow_spec 61 100 (by norm_num)).2.2.2 (by norm_num)⟩

/-- C8 counterexample: with A-bits 17 and 18 set (raw year 120) the returned
year field is 2120: it neither lies in 0..99 itself nor is its offset from
2000 within 0..99, refuting the claimed range for results of get_time. -/
theorem get_time_year_counterexample :
    (get_timeDecode [0, 0, 6, 0, 0, 0, 0, 0] [0, 0, 0, 0, 0, 0, 0, 0]).year = 2120 ∧
    ¬ ((get_timeDecode [0, 0, 6, 0, 0, 0, 0, 0] [0, 0, 0, 0, 0, 0, 0, 0]).year ≤ 99) ∧
    ¬ ((get_timeDecode [0, 0, 6, 0, 0, 0, 0, 0] [0, 0, 0, 0, 0, 0, 0, 0]).year - 2000 ≤ 99) := by
  refine ⟨by decide, by decide, by decide⟩

/-- C8 amended: the year field returned by the decode stage of get_time is
2000 plus the raw weighted year sum, hence lies in 2000..2165 (the raw sum is
bounded by 165, not 99, because noisy bit patterns are not clamped); the
second field is always 0. -/
theorem get_time_year_second_range (A B : List Nat) :
    2000 ≤ (get_timeDecode A B).year ∧
    (get_timeDecode A B).year = 2000 + decodeBCD A 17 8 wYear ∧
    (get_timeDecode A B).year ≤ 2165 ∧
    (get_timeDecode A B).second = 0 := by
  have hy : (get_timeDecode A B).year = 2000 + decodeBCD A 17 8 wYear := rfl
  have hsum := decodeBCD_eq_sum A 17 8 wYear (by norm_num)
  refine ⟨by omega, hy, ?_, rfl⟩
  rw [hy, hsum]
  simp [wYear, List.range_succ]
  have h17 : (if readBit A 17 then (80 : Nat) else 0) ≤ 80 := by split <;> omega
  have h18 : (if readBit A 18 then (40 : Nat) else 0) ≤ 40 := by split <;> omega
  have h19 : (if readBit A 19 then (20 : Nat) else 0) ≤ 20 := by split <;> omega
  have h20 : (if readBit A 20 then (10 : Nat) else 0) ≤ 10 := by split <;> omega
  have h21 : (if readBit A 21 then (8 : Nat) else 0) ≤ 8 := by split <;> omega
  have h22 : (if readBit A 22 then (4 : Nat) else 0) ≤ 4 := by split <;> omega
  have h23 : (if readBit A 23 then (2 : Nat) else 0) ≤ 2 := by split <;> omega
  have h24 : (if readBit A 24 then (1 : Nat) else 0) ≤ 1 := by split <;> omega
  omega

/-- C9: the retry wrapper returns only results whose checksum passed, and on
a failing head result it continues with the remaining stream; the embedded
decode stage get_timeDecode is a total function into MSFData, reflecting
that get_time always returns a result structure. -/
theorem get_time_with_retry_spec :
    (∀ (results : List MSFData) (r : MSFData),
        get_time_with_retryModel results = some r → r.checksumPassed = true) ∧
    (∀ (res : MSFData) (rest : List MSFData),
        get_time_with_retryModel (res :: rest)
          = if res.checksumPassed then some res else get_time_with_retryModel rest) := by
  constructor
  · intro results
    induction results with
    | nil => intro r h; simp [get_time_with_retryModel] at h
    | cons res rest ih =>
      intro r h
      rw [get_time_with_retryModel] at h
      by_cases hc : res.checksumPassed
      · rw [if_pos hc] at h
        cases h
        exact hc
      · rw [if_neg hc] at h
        exact ih r h
  · intro res rest
    rfl

/-- Witness for C9 on a singleton stream holding one passing result. -/
theorem get_time_with_retry_spec_witness :
    (⟨2024, 3, 17, 14, 5, 0, 7, true⟩ : MSFData).checksumPassed = true :=
  get_time_with_retry_spec.1 [⟨2024, 3, 17, 14, 5, 0, 7, true⟩]
    ⟨2024, 3, 17, 14, 5, 0, 7, true⟩ rfl

/-! ## Rolling-buffer scorer (MSF-Time-Lib.h lines 38-51, 68-73, 109-183)

The template parameter `SAMPLE_RATE_MS` becomes the explicit argument `S`.
The `static const int` derived sizes keep their source names.  The receiver
fields driven by `updateRollingBuffer` form the state record `ScorerState`;
the local variables of `updateRollingBuffer` (the two edge indices, computed
with the `if (idx < 0) idx += N` wraparound, and the two edge samples read
before the head write) become helper functions of the state. -/

def MINUTE_MARKER_LOOKUP_BUFFER_SIZE_IN_NUM_ELEMENTS (S : Nat) : Nat := 1500 / S

def MINUTE_MARKER_LOOKUP_BUFFER_SIZE_IN_BYTES (S : Nat) : Nat :=
  (MINUTE_MARKER_LOOKUP_BUFFER_SIZE_IN_NUM_ELEMENTS S + 7) / 8

def MINUTE_MARKER_NUM_SAMPLES_CARRIER (S : Nat) : Nat := 700 / S

def MINUTE_MARKER_NUM_SAMPLES_SILENCE (S : Nat) : Nat := 500 / S

def LOOKBACK_TOTAL (S : Nat) : Nat :=
  MINUTE_MARKER_NUM_SAMPLES_CARRIER S + MINUTE_MARKER_NUM_SAMPLES_SILENCE S

structure ScorerState where
  buffer : List Nat
  rollingBufferHead : Nat
  rollingBufferCarrierWindowScore : Int
  rollingBufferSilenceWindowScore : Int

def indexAtSilenceEdge (S : Nat) (st : ScorerState) : Int :=
  let idx : Int := (st.rollingBufferHead : Int) - MINUTE_MARKER_NUM_SAMPLES_SILENCE S
  if idx < 0 then idx + MINUTE_MARKER_LOOKUP_BUFFER_SIZE_IN_NUM_ELEMENTS S else idx

def indexAtCarrierEdge (S : Nat) (st : ScorerState) : Int :=
  let idx : Int := (st.rollingBufferHead : Int) - LOOKBACK_TOTAL S
  if idx < 0 then idx + MINUTE_MARKER_LOOKUP_BUFFER_SIZE_IN_NUM_ELEMENTS S else idx

def sampleLeavingSilence (S : Nat) (st : ScorerState) : Bool :=
  readBit st.buffer (indexAtSilenceEdge S st).toNat

def sampleLeavingCarrier (S : Nat) (st : ScorerState) : Bool :=
  readBit st.buffer (indexAtCarrierEdge S st).toNat

def updateRollingBuffer (S : Nat) (st : ScorerState) (carrierValue : Bool) :
    ScorerState × Int :=
  let carrierScore :=
    if sampleLeavingSilence S st then st.rollingBufferCarrierWindowScore + 1
    else st.rollingBufferCarrierWindowScore
  let carrierScore := if sampleLeavingCarrier S st then carrierScore - 1 else carrierScore
  let silenceScore :=
    if carrierValue = false then st.rollingBufferSilenceWindowScore + 1
    else st.rollingBufferSilenceWindowScore
  let silenceScore :=
    if sampleLeavingSilence S st = false then silenceScore - 1 else silenceScore
  let buffer := writeBit st.buffer st.rollingBufferHead carrierValue
  let rollingBufferHead := st.rollingBufferHead + 1
  let rollingBufferHead :=
    if rollingBufferHead ≥ MINUTE_MARKER_LOOKUP_BUFFER_SIZE_IN_NUM_ELEMENTS S then 0
    else rollingBufferHead
  (⟨buffer, rollingBufferHead, carrierScore, silenceScore⟩, carrierScore + silenceScore)

def rollingBufferSetupAndCleanup (S : Nat) : ScorerState :=
  ⟨List.replicate (MINUTE_MARKER_LOOKUP_BUFFER_SIZE_IN_BYTES S) 255, 0,
    (MINUTE_MARKER_NUM_SAMPLES_CARRIER S : Int), 0⟩

/-- The scan loop of `syncToMinuteMarker` (lines 258-286), abstracted over
the sequence of carrier samples it reads: state after feeding the samples,
paired with the score returned by the last `updateRollingBuffer` call
(0 if no sample was fed). -/
def syncScan (S : Nat) (samples : List Bool) : ScorerState × Int :=
  samples.foldl (fun p v => updateRollingBuffer S p.1 v) (rollingBufferSetupAndCleanup S, 0)

/-- Full recount of the carrier sub-window: the number of 1-valued samples at
positions head - LOOKBACK .. head - SAMPLES_SILENCE - 1 (mod BUFFER_LEN). -/
def carrierWindowRecount (S : Nat) (st : ScorerState) : Nat :=
  (List.range (MINUTE_MARKER_NUM_SAMPLES_CARRIER S)).countP fun t =>
    readBit st.buffer ((st.rollingBufferHead
        + (MINUTE_MARKER_LOOKUP_BUFFER_SIZE_IN_NUM_ELEMENTS S - LOOKBACK_TOTAL S) + t)
      % MINUTE_MARKER_LOOKUP_BUFFER_SIZE_IN_NUM_ELEMENTS S)

/-- Full recount of the silence sub-window: the number of 0-valued samples at
positions head - SAMPLES_SILENCE .. head - 1 (mod BUFFER_LEN). -/
def silenceWindowRecount (S : Nat) (st : ScorerState) : Nat :=
  (List.range (MINUTE_MARKER_NUM_SAMPLES_SILENCE S)).countP fun t =>
    !readBit st.buffer ((st.rollingBufferHead
        + (MINUTE_MARKER_LOOKUP_BUFFER_SIZE_IN_NUM_ELEMENTS S
            - MINUTE_MARKER_NUM_SAMPLES_SILENCE S) + t)
      % MINUTE_MARKER_LOOKUP_BUFFER_SIZE_IN_NUM_ELEMENTS S)

/-- Scorer invariant: the buffer keeps its allocated size, the head stays in
range, and both running scores equal their full recounts. -/
def ScorerInv (S : Nat) (st : ScorerState) : Prop :=
  st.buffer.length = MINUTE_MARKER_LOOKUP_BUFFER_SIZE_IN_BYTES S ∧
  st.rollingBufferHead < MINUTE_MARKER_LOOKUP_BUFFER_SIZE_IN_NUM_ELEMENTS S ∧
  st.rollingBufferCarrierWindowScore = (carrierWindowRecount S st : Int) ∧
  st.rollingBufferSilenceWindowScore = (silenceWindowRecount S st : Int)

/-! ## Supporting lemmas for the scorer step -/

theorem update_fst_buffer (S : Nat) (st : ScorerState) (v : Bool) :
    ((updateRollingBuffer S st v).1).buffer = writeBit st.buffer st.rollingBufferHead v := rfl

theorem update_fst_head (S : Nat) (st : ScorerState) (v : Bool) :
    ((updateRollingBuffer S st v).1).rollingBufferHead
      = if st.rollingBufferHead + 1 ≥ MINUTE_MARKER_LOOKUP_BUFFER_SIZE_IN_NUM_ELEMENTS S
        then 0 else st.rollingBufferHead + 1 := rfl

theorem update_fst_carrier (S : Nat) (st : ScorerState) (v : Bool) :
    ((updateRollingBuffer S st v).1).rollingBufferCarrierWindowScore
      = (if sampleLeavingCarrier S st then
          (if sampleLeavingSilence S st then st.rollingBufferCarrierWindowScore + 1
            else st.rollingBufferCarrierWindowScore) - 1
          else (if sampleLeavingSilence S st then st.rollingBufferCarrierWindowScore + 1
            else st.rollingBufferCarrierWindowScore)) := rfl

theorem update_fst_silence (S : Nat) (st : ScorerState) (v : Bool) :
    ((updateRollingBuffer S st v).1).rollingBufferSilenceWindowScore
      = (if sampleLeavingSilence S st = false then
          (if v = false then st.rollingBufferSilenceWindowScore + 1
            else st.rollingBufferSilenceWindowScore) - 1
          else (if v = false then st.rollingBufferSilenceWindowScore + 1
            else st.rollingBufferSilenceWindowScore)) := rfl

theorem update_snd (S : Nat) (st : ScorerState) (v : Bool) :
    (updateRollingBuffer S st v).2
      = ((updateRollingBuffer S st v).1).rollingBufferCarrierWindowScore
        + ((updateRollingBuffer S st v).1).rollingBufferSilenceWindowScore := rfl

/-- The `idx = head - X; if (idx < 0) idx += N` wraparound computes
`(head + (N - X)) mod N` when the head is in range and `X ≤ N`. -/
theorem edge_index_eq (N X h : Nat) (hh : h < N) (hX : X ≤ N) :
    ((if (h : Int) - X < 0 then (h : Int) - X + N else (h : Int) - X)).toNat
      = (h + (N - X)) % N := by
  by_cases hc : h < X
  · rw [if_pos (by omega)]
    have hlt : h + (N - X) < N := by omega
    rw [Nat.mod_eq_of_lt hlt]
    omega
  · rw [if_neg (by omega)]
    have hrw : h + (N - X) = N + (h - X) := by omega
    rw [hrw, Nat.add_mod_left, Nat.mod_eq_of_lt (by omega)]
    omega

theorem head_succ_mod (N h : Nat) (hh : h < N) :
    (if h + 1 ≥ N then 0 else h + 1) = (h + 1) % N := by
  by_cases hc : h + 1 ≥ N
  · have : h + 1 = N := by omega
    rw [if_pos hc, this, Nat.mod_self]
  · rw [if_neg hc, Nat.mod_eq_of_lt (by omega)]

theorem add_mod_ne_self (N h d : Nat) (hh : h < N) (hd1 : 1 ≤ d) (hd2 : d < N) :
    (h + d) % N ≠ h := by
  intro he
  by_cases hc : h + d < N
  · rw [Nat.mod_eq_of_lt hc] at he
    omega
  · rw [Nat.mod_eq_sub_mod (by omega), Nat.mod_eq_of_lt (by omega)] at he
    omega

theorem countP_range_succ_last (q : Nat → Bool) (len : Nat) :
    (List.range (len + 1)).countP q
      = (List.range len).countP q + (if q len then 1 else 0) := by
  rw [List.range_succ, List.countP_append]
  by_cases h : q len <;> simp [h]

theorem countP_range_succ_head (q : Nat → Bool) (len : Nat) :
    (List.range (len + 1)).countP q
      = (if q 0 then 1 else 0) + (List.range len).countP (fun t => q (t + 1)) := by
  rw [List.range_succ_eq_map, List.countP_cons, List.countP_map]
  have : (List.range len).countP (q ∘ Nat.succ) = (List.range len).countP (fun t => q (t + 1)) :=
    List.countP_congr (fun x _ => Iff.rfl)
  rw [this]
  by_cases h : q 0 <;> simp [h] <;> omega

theorem countP_range_shift (q : Nat → Bool) (len : Nat) :
    (if q 0 then 1 else 0) + (List.range len).countP (fun t => q (t + 1))
      = (List.range len).countP q + (if q len then 1 else 0) := by
  rw [← countP_range_succ_head, countP_range_succ_last]

/-- Sliding-window step, carrier side: advancing the head by one slot and
writing the new sample shifts the carrier window by one; the count changes by
the sample entering from the silence edge minus the sample falling out. -/
theorem carrier_count_step (N SC SS LB : Nat) (b : List Nat) (H : Nat) (v : Bool)
    (hLBe : LB = SC + SS) (hSS : 1 ≤ SS) (hLB : LB ≤ N)
    (hbound : N ≤ 8 * b.length) (hh : H < N) :
    (if readBit b ((H + (N - LB)) % N) then 1 else 0)
      + (List.range SC).countP (fun t =>
          readBit (writeBit b H v) (((H + 1) % N + (N - LB) + t) % N))
    = (List.range SC).countP (fun t => readBit b ((H + (N - LB) + t) % N))
      + (if readBit b ((H + (N - SS)) % N) then 1 else 0) := by
  have hc1 : (List.range SC).countP (fun t =>
        readBit (writeBit b H v) (((H + 1) % N + (N - LB) + t) % N))
      = (List.range SC).countP (fun t => readBit b ((H + (N - LB) + (t + 1)) % N)) := by
    apply List.countP_congr
    intro t htm
    have ht : t < SC := List.mem_range.mp htm
    have e1 : (H + 1) % N + (N - LB) + t = (H + 1) % N + ((N - LB) + t) := by omega
    rw [e1, Nat.mod_add_mod]
    have e2 : H + 1 + ((N - LB) + t) = H + (1 + (N - LB) + t) := by omega
    rw [e2]
    have hne : (H + (1 + (N - LB) + t)) % N ≠ H :=
      add_mod_ne_self N H _ hh (by omega) (by omega)
    have hlt : (H + (1 + (N - LB) + t)) % N < N := Nat.mod_lt _ (by omega)
    rw [readBit_writeBit b H _ v (by omega), if_neg hne]
    have e3 : H + (1 + (N - LB) + t) = H + (N - LB) + (t + 1) := by omega
    rw [e3]
  rw [hc1]
  have hq : (if readBit b ((H + (N - LB) + 0) % N) then 1 else 0)
      + (List.range SC).countP (fun t => readBit b ((H + (N - LB) + (t + 1)) % N))
      = (List.range SC).countP (fun u => readBit b ((H + (N - LB) + u) % N))
        + (if readBit b ((H + (N - LB) + SC) % N) then 1 else 0) :=
    countP_range_shift (fun u => readBit b ((H + (N - LB) + u) % N)) SC
  rw [Nat.add_zero] at hq
  rw [show H + (N - LB) + SC = H + (N - SS) from by omega] at hq
  exact hq

/-- Sliding-window step, silence side: the new sample enters the silence
window at the most recent slot, the silence-edge sample leaves it. -/
theorem silence_count_step (N SC SS LB : Nat) (b : List Nat) (H : Nat) (v : Bool)
    (hLBe : LB = SC + SS) (hSS : 1 ≤ SS) (hLB : LB ≤ N)
    (hbound : N ≤ 8 * b.length) (hh : H < N) :
    (List.range SS).countP (fun t =>
        !readBit (writeBit b H v) (((H + 1) % N + (N - SS) + t) % N))
      + (if !readBit b ((H + (N - SS)) % N) then 1 else 0)
    = (List.range SS).countP (fun t => !readBit b ((H + (N - SS) + t) % N))
      + (if !v then 1 else 0) := by
  have hrSS : List.range SS = List.range ((SS - 1) + 1) := by rw [Nat.sub_add_cancel hSS]
  rw [hrSS, countP_range_succ_last, countP_range_succ_head]
  have hlast : (!readBit (writeBit b H v) (((H + 1) % N + (N - SS) + (SS - 1)) % N)) = !v := by
    have e1 : (H + 1) % N + (N - SS) + (SS - 1) = (H + 1) % N + ((N - SS) + (SS - 1)) := by
      omega
    rw [e1, Nat.mod_add_mod]
    have e2 : H + 1 + ((N - SS) + (SS - 1)) = H + N := by omega
    rw [e2, Nat.add_mod_right, Nat.mod_eq_of_lt hh]
    rw [readBit_writeBit b H _ v (by omega), if_pos rfl]
  rw [hlast]
  have hc2 : (List.range (SS - 1)).countP (fun t =>
        !readBit (writeBit b H v) (((H + 1) % N + (N - SS) + t) % N))
      = (List.range (SS - 1)).countP (fun t => !readBit b ((H + (N - SS) + (t + 1)) % N)) := by
    apply List.countP_congr
    intro t htm
    have ht : t < SS - 1 := List.mem_range.mp htm
    have e1 : (H + 1) % N + (N - SS) + t = (H + 1) % N + ((N - SS) + t) := by omega
    rw [e1, Nat.mod_add_mod]
    have e2 : H + 1 + ((N - SS) + t) = H + (1 + (N - SS) + t) := by omega
    rw [e2]
    have hne : (H + (1 + (N - SS) + t)) % N ≠ H :=
      add_mod_ne_self N H _ hh (by omega) (by omega)
    have hlt : (H + (1 + (N - SS) + t)) % N < N := Nat.mod_lt _ (by omega)
    rw [readBit_writeBit b H _ v (by omega), if_neg hne]
    have e3 : H + (1 + (N - SS) + t) = H + (N - SS) + (t + 1) := by omega
    rw [e3]
  rw [hc2]
  rw [show H + (N - SS) + 0 = H + (N - SS) from by omega]
  omega

theorem bytes_bound (S : Nat) :
    MINUTE_MARKER_LOOKUP_BUFFER_SIZE_IN_NUM_ELEMENTS S
      ≤ 8 * MINUTE_MARKER_LOOKUP_BUFFER_SIZE_IN_BYTES S := by
  unfold MINUTE_MARKER_LOOKUP_BUFFER_SIZE_IN_BYTES
  omega

theorem sampleLeavingSilence_char (S : Nat) (st : ScorerState)
    (hh : st.rollingBufferHead < MINUTE_MARKER_LOOKUP_BUFFER_SIZE_IN_NUM_ELEMENTS S)
    (hX : MINUTE_MARKER_NUM_SAMPLES_SILENCE S
      ≤ MINUTE_MARKER_LOOKUP_BUFFER_SIZE_IN_NUM_ELEMENTS S) :
    sampleLeavingSilence S st
      = readBit st.buffer ((st.rollingBufferHead
          + (MINUTE_MARKER_LOOKUP_BUFFER_SIZE_IN_NUM_ELEMENTS S
              - MINUTE_MARKER_NUM_SAMPLES_SILENCE S))
        % MINUTE_MARKER_LOOKUP_BUFFER_SIZE_IN_NUM_ELEMENTS S) :=
  congrArg (readBit st.buffer)
    (edge_index_eq (MINUTE_MARKER_LOOKUP_BUFFER_SIZE_IN_NUM_ELEMENTS S)
      (MINUTE_MARKER_NUM_SAMPLES_SILENCE S) st.rollingBufferHead hh hX)

theorem sampleLeavingCarrier_char (S : Nat) (st : ScorerState)
    (hh : st.rollingBufferHead < MINUTE_MARKER_LOOKUP_BUFFER_SIZE_IN_NUM_ELEMENTS S)
    (hX : LOOKBACK_TOTAL S ≤ MINUTE_MARKER_LOOKUP_BUFFER_SIZE_IN_NUM_ELEMENTS S) :
    sampleLeavingCarrier S st
      = readBit st.buffer ((st.rollingBufferHead
          + (MINUTE_MARKER_LOOKUP_BUFFER_SIZE_IN_NUM_ELEMENTS S - LOOKBACK_TOTAL S))
        % MINUTE_MARKER_LOOKUP_BUFFER_SIZE_IN_NUM_ELEMENTS S) :=
  congrArg (readBit st.buffer)
    (edge_index_eq (MINUTE_MARKER_LOOKUP_BUFFER_SIZE_IN_NUM_ELEMENTS S)
      (LOOKBACK_TOTAL S) st.rollingBufferHead hh hX)

/-- One `updateRollingBuffer` call preserves the scorer invariant, and its
returned confidence equals the sum of the two full recounts over the updated
state. -/
theorem updateRollingBuffer_step (S : Nat)
    (hSC : 1 ≤ MINUTE_MARKER_NUM_SAMPLES_CARRIER S)
    (hSS : 1 ≤ MINUTE_MARKER_NUM_SAMPLES_SILENCE S)
    (hLB : LOOKBACK_TOTAL S ≤ MINUTE_MARKER_LOOKUP_BUFFER_SIZE_IN_NUM_ELEMENTS S)
    (st : ScorerState) (hInv : ScorerInv S st) (v : Bool) :
    ScorerInv S (updateRollingBuffer S st v).1 ∧
    (updateRollingBuffer S st v).2
      = (carrierWindowRecount S (updateRollingBuffer S st v).1 : Int)
        + (silenceWindowRecount S (updateRollingBuffer S st v).1 : Int) := by
  obtain ⟨hlen, hhead, hcs, hss⟩ := hInv
  have hLBe : LOOKBACK_TOTAL S
      = MINUTE_MARKER_NUM_SAMPLES_CARRIER S + MINUTE_MARKER_NUM_SAMPLES_SILENCE S := rfl
  have hN0 : 0 < MINUTE_MARKER_LOOKUP_BUFFER_SIZE_IN_NUM_ELEMENTS S := by omega
  have hbound : MINUTE_MARKER_LOOKUP_BUFFER_SIZE_IN_NUM_ELEMENTS S ≤ 8 * st.buffer.length := by
    rw [hlen]
    exact bytes_bound S
  have hsls := sampleLeavingSilence_char S st hhead (by omega)
  have hslc := sampleLeavingCarrier_char S st hhead hLB
  have hC := carrier_count_step (MINUTE_MARKER_LOOKUP_BUFFER_SIZE_IN_NUM_ELEMENTS S)
      (MINUTE_MARKER_NUM_SAMPLES_CARRIER S) (MINUTE_MARKER_NUM_SAMPLES_SILENCE S)
      (LOOKBACK_TOTAL S) st.buffer st.rollingBufferHead v hLBe hSS hLB hbound hhead
  have hS := silence_count_step (MINUTE_MARKER_LOOKUP_BUFFER_SIZE_IN_NUM_ELEMENTS S)
      (MINUTE_MARKER_NUM_SAMPLES_CARRIER S) (MINUTE_MARKER_NUM_SAMPLES_SILENCE S)
      (LOOKBACK_TOTAL S) st.buffer st.rollingBufferHead v hLBe hSS hLB hbound hhead
  rw [← hslc, ← hsls] at hC
  rw [← hsls] at hS
  have hnewC : carrierWindowRecount S (updateRollingBuffer S st v).1
      = (List.range (MINUTE_MARKER_NUM_SAMPLES_CARRIER S)).countP (fun t =>
          readBit (writeBit st.buffer st.rollingBufferHead v)
            (((st.rollingBufferHead + 1) % MINUTE_MARKER_LOOKUP_BUFFER_SIZE_IN_NUM_ELEMENTS S
                + (MINUTE_MARKER_LOOKUP_BUFFER_SIZE_IN_NUM_ELEMENTS S - LOOKBACK_TOTAL S) + t)
              % MINUTE_MARKER_LOOKUP_BUFFER_SIZE_IN_NUM_ELEMENTS S)) := by
    unfold carrierWindowRecount
    rw [update_fst_buffer, update_fst_head, head_succ_mod _ _ hhead]
  have hnewS : silenceWindowRecount S (updateRollingBuffer S st v).1
      = (List.range (MINUTE_MARKER_NUM_SAMPLES_SILENCE S)).countP (fun t =>
          !readBit (writeBit st.buffer st.rollingBufferHead v)
            (((st.rollingBufferHead + 1) % MINUTE_MARKER_LOOKUP_BUFFER_SIZE_IN_NUM_ELEMENTS S
                + (MINUTE_MARKER_LOOKUP_BUFFER_SIZE_IN_NUM_ELEMENTS S
                    - MINUTE_MARKER_NUM_SAMPLES_SILENCE S) + t)
              % MINUTE_MARKER_LOOKUP_BUFFER_SIZE_IN_NUM_ELEMENTS S)) := by
    unfold silenceWindowRecount
    rw [update_fst_buffer, update_fst_head, head_succ_mod _ _ hhead]
  have holdC : (carrierWindowRecount S st : Int)
      = ((List.range (MINUTE_MARKER_NUM_SAMPLES_CARRIER S)).countP (fun t =>
          readBit st.buffer ((st.rollingBufferHead
              + (MINUTE_MARKER_LOOKUP_BUFFER_SIZE_IN_NUM_ELEMENTS S - LOOKBACK_TOTAL S) + t)
            % MINUTE_MARKER_LOOKUP_BUFFER_SIZE_IN_NUM_ELEMENTS S)) : Int) := rfl
  have holdS : (silenceWindowRecount S st : Int)
      = ((List.range (MINUTE_MARKER_NUM_SAMPLES_SILENCE S)).countP (fun t =>
          !readBit st.buffer ((st.rollingBufferHead
              + (MINUTE_MARKER_LOOKUP_BUFFER_SIZE_IN_NUM_ELEMENTS S
                  - MINUTE_MARKER_NUM_SAMPLES_SILENCE S) + t)
            % MINUTE_MARKER_LOOKUP_BUFFER_SIZE_IN_NUM_ELEMENTS S)) : Int) := rfl
  rw [holdC] at hcs
  rw [holdS] at hss
  have hCscore : (updateRollingBuffer S st v).1.rollingBufferCarrierWindowScore
      = (carrierWindowRecount S (updateRollingBuffer S st v).1 : Int) := by
    rw [update_fst_carrier, hnewC]
    rcases hb1 : sampleLeavingSilence S st <;> rcases hb2 : sampleLeavingCarrier S st <;>
      simp only [hb1, hb2] at hC ⊢ <;> simp at hC ⊢ <;> omega
  have hSscore : (updateRollingBuffer S st v).1.rollingBufferSilenceWindowScore
      = (silenceWindowRecount S (updateRollingBuffer S st v).1 : Int) := by
    rw [update_fst_silence, hnewS]
    rcases hb1 : sampleLeavingSilence S st <;> rcases v <;>
      simp only [hb1] at hS ⊢ <;> simp at hS ⊢ <;> omega
  refine ⟨⟨?_, ?_, hCscore, hSscore⟩, ?_⟩
  · rw [update_fst_buffer, writeBit_length, hlen]
  · rw [update_fst_head]
    split <;> omega
  · rw [update_snd, hCscore, hSscore]

/-! ## Invariant at reset and along any run -/

theorem rollingBufferSetupAndCleanup_inv (S : Nat)
    (hSC : 1 ≤ MINUTE_MARKER_NUM_SAMPLES_CARRIER S)
    (hSS : 1 ≤ MINUTE_MARKER_NUM_SAMPLES_SILENCE S)
    (hLB : LOOKBACK_TOTAL S ≤ MINUTE_MARKER_LOOKUP_BUFFER_SIZE_IN_NUM_ELEMENTS S) :
    ScorerInv S (rollingBufferSetupAndCleanup S) := by
  have hLBe : LOOKBACK_TOTAL S
      = MINUTE_MARKER_NUM_SAMPLES_CARRIER S + MINUTE_MARKER_NUM_SAMPLES_SILENCE S := rfl
  have hN0 : 0 < MINUTE_MARKER_LOOKUP_BUFFER_SIZE_IN_NUM_ELEMENTS S := by omega
  have hall : ∀ p : Nat,
      readBit (rollingBufferSetupAndCleanup S).buffer
        (p % MINUTE_MARKER_LOOKUP_BUFFER_SIZE_IN_NUM_ELEMENTS S) = true := by
    intro p
    apply readBit_replicate_255
    have := bytes_bound S
    have := Nat.mod_lt p hN0
    omega
  refine ⟨by simp [rollingBufferSetupAndCleanup], by simpa using hN0, ?_, ?_⟩
  · show (MINUTE_MARKER_NUM_SAMPLES_CARRIER S : Int) = _
    have : carrierWindowRecount S (rollingBufferSetupAndCleanup S)
        = MINUTE_MARKER_NUM_SAMPLES_CARRIER S := by
      unfold carrierWindowRecount
      have hc : ∀ t ∈ List.range (MINUTE_MARKER_NUM_SAMPLES_CARRIER S),
          (readBit (rollingBufferSetupAndCleanup S).buffer
            (((rollingBufferSetupAndCleanup S).rollingBufferHead
                + (MINUTE_MARKER_LOOKUP_BUFFER_SIZE_IN_NUM_ELEMENTS S - LOOKBACK_TOTAL S) + t)
              % MINUTE_MARKER_LOOKUP_BUFFER_SIZE_IN_NUM_ELEMENTS S) = true)
            ↔ ((fun _ => true) t = true) := by
        intro t _
        simp [hall]
      rw [List.countP_congr hc]
      simp
    rw [this]
  · show (0 : Int) = _
    have : silenceWindowRecount S (rollingBufferSetupAndCleanup S) = 0 := by
      unfold silenceWindowRecount
      rw [List.countP_eq_zero]
      intro t _
      simp [hall]
    rw [this]
    simp

theorem syncScan_inv_aux (S : Nat)
    (hSC : 1 ≤ MINUTE_MARKER_NUM_SAMPLES_CARRIER S)
    (hSS : 1 ≤ MINUTE_MARKER_NUM_SAMPLES_SILENCE S)
    (hLB : LOOKBACK_TOTAL S ≤ MINUTE_MARKER_LOOKUP_BUFFER_SIZE_IN_NUM_ELEMENTS S) :
    ∀ (samples : List Bool) (p : ScorerState × Int), ScorerInv S p.1 →
      ScorerInv S ((samples.foldl (fun p v => updateRollingBuffer S p.1 v) p)).1 := by
  intro samples
  induction samples with
  | nil => intro p hp; exact hp
  | cons v rest ih =>
    intro p hp
    exact ih (updateRollingBuffer S p.1 v) (updateRollingBuffer_step S hSC hSS hLB p.1 hp v).1

theorem syncScan_inv (S : Nat)
    (hSC : 1 ≤ MINUTE_MARKER_NUM_SAMPLES_CARRIER S)
    (hSS : 1 ≤ MINUTE_MARKER_NUM_SAMPLES_SILENCE S)
    (hLB : LOOKBACK_TOTAL S ≤ MINUTE_MARKER_LOOKUP_BUFFER_SIZE_IN_NUM_ELEMENTS S)
    (samples : List Bool) :
    ScorerInv S (syncScan S samples).1 :=
  syncScan_inv_aux S hSC hSS hLB samples _
    (rollingBufferSetupAndCleanup_inv S hSC hSS hLB)

/-! ## Derived-constant facts for sample periods in [1, 100] -/

theorem div_add_div_le (a b n : Nat) (hn : 0 < n) : a / n + b / n ≤ (a + b) / n := by
  rw [Nat.le_div_iff_mul_le hn]
  have ha := Nat.div_mul_le_self a n
  have hb := Nat.div_mul_le_self b n
  have : (a / n + b / n) * n = a / n * n + b / n * n := by ring
  omega

theorem consts_in_range (S : Nat) (h1 : 1 ≤ S) (h2 : S ≤ 100) :
    7 ≤ MINUTE_MARKER_NUM_SAMPLES_CARRIER S ∧
    5 ≤ MINUTE_MARKER_NUM_SAMPLES_SILENCE S ∧
    LOOKBACK_TOTAL S + 3 ≤ MINUTE_MARKER_LOOKUP_BUFFER_SIZE_IN_NUM_ELEMENTS S := by
  have hc : (7 : Nat) = 700 / 100 := by norm_num
  have hs : (5 : Nat) = 500 / 100 := by norm_num
  have h3 : (3 : Nat) = 300 / 100 := by norm_num
  refine ⟨?_, ?_, ?_⟩
  · rw [hc]
    exact Nat.div_le_div_left h2 h1
  · rw [hs]
    exact Nat.div_le_div_left h2 h1
  · have hd1 : 700 / S + 500 / S ≤ 1200 / S := div_add_div_le 700 500 S h1
    have hd2 : 1200 / S + 300 / S ≤ 1500 / S := div_add_div_le 1200 300 S h1
    have hd3 : 300 / 100 ≤ 300 / S := Nat.div_le_div_left h2 h1
    show 700 / S + 500 / S + 3 ≤ 1500 / S
    omega

theorem recount_le_window (S : Nat) (st : ScorerState) :
    carrierWindowRecount S st ≤ MINUTE_MARKER_NUM_SAMPLES_CARRIER S ∧
    silenceWindowRecount S st ≤ MINUTE_MARKER_NUM_SAMPLES_SILENCE S := by
  constructor
  · unfold carrierWindowRecount
    exact le_trans (List.countP_le_length _) (Nat.le_of_eq (List.length_range _))
  · unfold silenceWindowRecount
    exact le_trans (List.countP_le_length _) (Nat.le_of_eq (List.length_range _))

/-- C1: for the sample periods 10, 20, 50 and 100 ms, after any sequence of
samples fed since a reset, the confidence returned by the next
`updateRollingBuffer` call equals the full recount of 1-samples in the
carrier sub-window plus 0-samples in the silence sub-window of the circular
buffer (positions not yet overwritten still hold the all-1s initial fill). -/
theorem scorer_incremental_eq_recount (S : Nat)
    (hS : S = 10 ∨ S = 20 ∨ S = 50 ∨ S = 100)
    (samples : List Bool) (v : Bool) :
    (updateRollingBuffer S (syncScan S samples).1 v).2
      = (carrierWindowRecount S (updateRollingBuffer S (syncScan S samples).1 v).1 : Int)
        + (silenceWindowRecount S (updateRollingBuffer S (syncScan S samples).1 v).1 : Int) := by
  have hSC : 1 ≤ MINUTE_MARKER_NUM_SAMPLES_CARRIER S := by
    rcases hS with h | h | h | h <;> subst h <;> decide
  have hSS : 1 ≤ MINUTE_MARKER_NUM_SAMPLES_SILENCE S := by
    rcases hS with h | h | h | h <;> subst h <;> decide
  have hLB : LOOKBACK_TOTAL S ≤ MINUTE_MARKER_LOOKUP_BUFFER_SIZE_IN_NUM_ELEMENTS S := by
    rcases hS with h | h | h | h <;> subst h <;> decide
  exact (updateRollingBuffer_step S hSC hSS hLB _ (syncScan_inv S hSC hSS hLB samples) v).2

/-- Witness for C1 at S = 10 after feeding two samples. -/
theorem scorer_incremental_eq_recount_witness :
    (updateRollingBuffer 10 (syncScan 10 [true, false]).1 false).2
      = (carrierWindowRecount 10 (updateRollingBuffer 10 (syncScan 10 [true, false]).1 false).1
          : Int)
        + (silenceWindowRecount 10
            (updateRollingBuffer 10 (syncScan 10 [true, false]).1 false).1 : Int) :=
  scorer_incremental_eq_recount 10 (Or.inl rfl) [true, false] false

/-- C4: for every sample period in [1, 100], after any sequence of sample
feeds following a reset the running scores satisfy
0 ≤ carrierScore ≤ SAMPLES_CARRIER and 0 ≤ silenceScore ≤ SAMPLES_SILENCE,
so every confidence returned by `updateRollingBuffer` lies in
[0, LOOKBACK]. -/
theorem scorer_scores_in_range (S : Nat) (h1 : 1 ≤ S) (h2 : S ≤ 100)
    (samples : List Bool) :
    (0 ≤ (syncScan S samples).1.rollingBufferCarrierWindowScore ∧
     (syncScan S samples).1.rollingBufferCarrierWindowScore
        ≤ (MINUTE_MARKER_NUM_SAMPLES_CARRIER S : Int)) ∧
    (0 ≤ (syncScan S samples).1.rollingBufferSilenceWindowScore ∧
     (syncScan S samples).1.rollingBufferSilenceWindowScore
        ≤ (MINUTE_MARKER_NUM_SAMPLES_SILENCE S : Int)) ∧
    (∀ v : Bool, 0 ≤ (updateRollingBuffer S (syncScan S samples).1 v).2 ∧
      (updateRollingBuffer S (syncScan S samples).1 v).2 ≤ (LOOKBACK_TOTAL S : Int)) := by
  obtain ⟨hSCc, hSSc, hLBc⟩ := consts_in_range S h1 h2
  have hSC : 1 ≤ MINUTE_MARKER_NUM_SAMPLES_CARRIER S := by omega
  have hSS : 1 ≤ MINUTE_MARKER_NUM_SAMPLES_SILENCE S := by omega
  have hLB : LOOKBACK_TOTAL S ≤ MINUTE_MARKER_LOOKUP_BUFFER_SIZE_IN_NUM_ELEMENTS S := by
    omega
  have hInv := syncScan_inv S hSC hSS hLB samples
  obtain ⟨hb1, hb2⟩ := recount_le_window S (syncScan S samples).1
  obtain ⟨hlen, hh, hcs, hss⟩ := hInv
  refine ⟨⟨?_, ?_⟩, ⟨?_, ?_⟩, ?_⟩
  · rw [hcs]
    exact Int.natCast_nonneg _
  · rw [hcs]
    exact_mod_cast hb1
  · rw [hss]
    exact Int.natCast_nonneg _
  · rw [hss]
    exact_mod_cast hb2
  · intro v
    have hstep := updateRollingBuffer_step S hSC hSS hLB (syncScan S samples).1
      ⟨hlen, hh, hcs, hss⟩ v
    obtain ⟨hb3, hb4⟩ := recount_le_window S (updateRollingBuffer S (syncScan S samples).1 v).1
    have hsum := hstep.2
    have hLBe : LOOKBACK_TOTAL S
        = MINUTE_MARKER_NUM_SAMPLES_CARRIER S + MINUTE_MARKER_NUM_SAMPLES_SILENCE S := rfl
    constructor
    · rw [hsum]
      omega
    · rw [hsum]
      omega

/-- Witness for C4 at S = 37 after feeding one sample. -/
theorem scorer_scores_in_range_witness :
    (0 ≤ (syncScan 37 [true]).1.rollingBufferCarrierWindowScore ∧
     (syncScan 37 [true]).1.rollingBufferCarrierWindowScore
        ≤ (MINUTE_MARKER_NUM_SAMPLES_CARRIER 37 : Int)) ∧
    (0 ≤ (syncScan 37 [true]).1.rollingBufferSilenceWindowScore ∧
     (syncScan 37 [true]).1.rollingBufferSilenceWindowScore
        ≤ (MINUTE_MARKER_NUM_SAMPLES_SILENCE 37 : Int)) ∧
    (∀ v : Bool, 0 ≤ (updateRollingBuffer 37 (syncScan 37 [true]).1 v).2 ∧
      (updateRollingBuffer 37 (syncScan 37 [true]).1 v).2 ≤ (LOOKBACK_TOTAL 37 : Int)) :=
  scorer_scores_in_range 37 (by norm_num) (by norm_num) [true]

/-! ## State reached by the ideal minute-marker feed (for C6) -/

theorem syncScan_phase1 (S : Nat)
    (hSC : 1 ≤ MINUTE_MARKER_NUM_SAMPLES_CARRIER S)
    (hSS : 1 ≤ MINUTE_MARKER_NUM_SAMPLES_SILENCE S)
    (hLB : LOOKBACK_TOTAL S ≤ MINUTE_MARKER_LOOKUP_BUFFER_SIZE_IN_NUM_ELEMENTS S) :
    ∀ k, k ≤ MINUTE_MARKER_NUM_SAMPLES_CARRIER S →
      (syncScan S (List.replicate k true)).1.buffer.length
          = MINUTE_MARKER_LOOKUP_BUFFER_SIZE_IN_BYTES S ∧
      (syncScan S (List.replicate k true)).1.rollingBufferHead = k ∧
      (syncScan S (List.replicate k true)).1.rollingBufferCarrierWindowScore
          = (MINUTE_MARKER_NUM_SAMPLES_CARRIER S : Int) ∧
      (syncScan S (List.replicate k true)).1.rollingBufferSilenceWindowScore = 0 ∧
      ∀ q, q < 8 * MINUTE_MARKER_LOOKUP_BUFFER_SIZE_IN_BYTES S →
        readBit (syncScan S (List.replicate k true)).1.buffer q = true := by
  have hLBe : LOOKBACK_TOTAL S
      = MINUTE_MARKER_NUM_SAMPLES_CARRIER S + MINUTE_MARKER_NUM_SAMPLES_SILENCE S := rfl
  have hN0 : 0 < MINUTE_MARKER_LOOKUP_BUFFER_SIZE_IN_NUM_ELEMENTS S := by omega
  have hby := bytes_bound S
  intro k
  induction k with
  | zero =>
    intro _
    refine ⟨by simp [syncScan, rollingBufferSetupAndCleanup], rfl, rfl, rfl, ?_⟩
    intro q hq
    exact readBit_replicate_255 _ q hq
  | succ n ih =>
    intro hk
    obtain ⟨hl, hh, hc, hs, hb⟩ := ih (by omega)
    have hstep : syncScan S (List.replicate (n + 1) true)
        = updateRollingBuffer S (syncScan S (List.replicate n true)).1 true := by
      unfold syncScan
      rw [List.replicate_succ', List.foldl_append]
      rfl
    have hhN : (syncScan S (List.replicate n true)).1.rollingBufferHead
        < MINUTE_MARKER_LOOKUP_BUFFER_SIZE_IN_NUM_ELEMENTS S := by
      rw [hh]; omega
    have hsls : sampleLeavingSilence S (syncScan S (List.replicate n true)).1 = true := by
      rw [sampleLeavingSilence_char S _ hhN (by omega)]
      apply hb
      have := Nat.mod_lt ((syncScan S (List.replicate n true)).1.rollingBufferHead
          + (MINUTE_MARKER_LOOKUP_BUFFER_SIZE_IN_NUM_ELEMENTS S
              - MINUTE_MARKER_NUM_SAMPLES_SILENCE S)) hN0
      omega
    have hslc : sampleLeavingCarrier S (syncScan S (List.replicate n true)).1 = true := by
      rw [sampleLeavingCarrier_char S _ hhN hLB]
      apply hb
      have := Nat.mod_lt ((syncScan S (List.replicate n true)).1.rollingBufferHead
          + (MINUTE_MARKER_LOOKUP_BUFFER_SIZE_IN_NUM_ELEMENTS S - LOOKBACK_TOTAL S)) hN0
      omega
    rw [hstep]
    refine ⟨?_, ?_, ?_, ?_, ?_⟩
    · rw [update_fst_buffer, writeBit_length, hl]
    · rw [update_fst_head, hh, if_neg (by omega)]
    · rw [update_fst_carrier, hsls, hslc, hc]
      simp
    · rw [update_fst_silence, hsls, hs]
      simp
    · intro q hq
      rw [update_fst_buffer,
        readBit_writeBit _ _ _ _ (by rw [hl]; omega)]
      split
      · rfl
      · exact hb q hq

theorem syncScan_phase2 (S : Nat)
    (hSC : 1 ≤ MINUTE_MARKER_NUM_SAMPLES_CARRIER S)
    (hSS : 1 ≤ MINUTE_MARKER_NUM_SAMPLES_SILENCE S)
    (hSSC : MINUTE_MARKER_NUM_SAMPLES_SILENCE S ≤ MINUTE_MARKER_NUM_SAMPLES_CARRIER S)
    (hLBlt : LOOKBACK_TOTAL S < MINUTE_MARKER_LOOKUP_BUFFER_SIZE_IN_NUM_ELEMENTS S) :
    ∀ j, j ≤ MINUTE_MARKER_NUM_SAMPLES_SILENCE S →
      (syncScan S (List.replicate (MINUTE_MARKER_NUM_SAMPLES_CARRIER S) true
          ++ List.replicate j false)).1.buffer.length
          = MINUTE_MARKER_LOOKUP_BUFFER_SIZE_IN_BYTES S ∧
      (syncScan S (List.replicate (MINUTE_MARKER_NUM_SAMPLES_CARRIER S) true
          ++ List.replicate j false)).1.rollingBufferHead
          = MINUTE_MARKER_NUM_SAMPLES_CARRIER S + j ∧
      (syncScan S (List.replicate (MINUTE_MARKER_NUM_SAMPLES_CARRIER S) true
          ++ List.replicate j false)).1.rollingBufferCarrierWindowScore
          = (MINUTE_MARKER_NUM_SAMPLES_CARRIER S : Int) ∧
      (syncScan S (List.replicate (MINUTE_MARKER_NUM_SAMPLES_CARRIER S) true
          ++ List.replicate j false)).1.rollingBufferSilenceWindowScore = (j : Int) ∧
      ∀ q, q < 8 * MINUTE_MARKER_LOOKUP_BUFFER_SIZE_IN_BYTES S →
        readBit (syncScan S (List.replicate (MINUTE_MARKER_NUM_SAMPLES_CARRIER S) true
            ++ List.replicate j false)).1.buffer q
          = (if MINUTE_MARKER_NUM_SAMPLES_CARRIER S ≤ q
              ∧ q < MINUTE_MARKER_NUM_SAMPLES_CARRIER S + j then false else true) := by
  have hLBe : LOOKBACK_TOTAL S
      = MINUTE_MARKER_NUM_SAMPLES_CARRIER S + MINUTE_MARKER_NUM_SAMPLES_SILENCE S := rfl
  have hN0 : 0 < MINUTE_MARKER_LOOKUP_BUFFER_SIZE_IN_NUM_ELEMENTS S := by omega
  have hby := bytes_bound S
  intro j
  induction j with
  | zero =>
    intro _
    obtain ⟨hl, hh, hc, hs, hb⟩ :=
      syncScan_phase1 S hSC hSS (by omega) (MINUTE_MARKER_NUM_SAMPLES_CARRIER S) le_rfl
    simp only [List.replicate_zero, List.append_nil]
    refine ⟨hl, by rw [hh]; omega, hc, hs, ?_⟩
    intro q hq
    rw [hb q hq, if_neg (by omega)]
  | succ n ih =>
    intro hj
    obtain ⟨hl, hh, hc, hs, hb⟩ := ih (by omega)
    have hstep : syncScan S (List.replicate (MINUTE_MARKER_NUM_SAMPLES_CARRIER S) true
          ++ List.replicate (n + 1) false)
        = updateRollingBuffer S
            (syncScan S (List.replicate (MINUTE_MARKER_NUM_SAMPLES_CARRIER S) true
              ++ List.replicate n false)).1 false := by
      unfold syncScan
      rw [List.replicate_succ', ← List.append_assoc, List.foldl_append]
      rfl
    have hhN : (syncScan S (List.replicate (MINUTE_MARKER_NUM_SAMPLES_CARRIER S) true
          ++ List.replicate n false)).1.rollingBufferHead
        < MINUTE_MARKER_LOOKUP_BUFFER_SIZE_IN_NUM_ELEMENTS S := by
      rw [hh]; omega
    have hsls : sampleLeavingSilence S
        (syncScan S (List.replicate (MINUTE_MARKER_NUM_SAMPLES_CARRIER S) true
          ++ List.replicate n false)).1 = true := by
      rw [sampleLeavingSilence_char S _ hhN (by omega), hh]
      have hpos : (MINUTE_MARKER_NUM_SAMPLES_CARRIER S + n
            + (MINUTE_MARKER_LOOKUP_BUFFER_SIZE_IN_NUM_ELEMENTS S
                - MINUTE_MARKER_NUM_SAMPLES_SILENCE S))
            % MINUTE_MARKER_LOOKUP_BUFFER_SIZE_IN_NUM_ELEMENTS S
          = MINUTE_MARKER_NUM_SAMPLES_CARRIER S + n
            - MINUTE_MARKER_NUM_SAMPLES_SILENCE S := by
        have he : MINUTE_MARKER_NUM_SAMPLES_CARRIER S + n
              + (MINUTE_MARKER_LOOKUP_BUFFER_SIZE_IN_NUM_ELEMENTS S
                  - MINUTE_MARKER_NUM_SAMPLES_SILENCE S)
            = MINUTE_MARKER_LOOKUP_BUFFER_SIZE_IN_NUM_ELEMENTS S
              + (MINUTE_MARKER_NUM_SAMPLES_CARRIER S + n
                  - MINUTE_MARKER_NUM_SAMPLES_SILENCE S) := by omega
        rw [he, Nat.add_mod_left, Nat.mod_eq_of_lt (by omega)]
      rw [hpos, hb _ (by omega), if_neg (by omega)]
    have hslc : sampleLeavingCarrier S
        (syncScan S (List.replicate (MINUTE_MARKER_NUM_SAMPLES_CARRIER S) true
          ++ List.replicate n false)).1 = true := by
      rw [sampleLeavingCarrier_char S _ hhN (by omega), hh]
      have hpos : (MINUTE_MARKER_NUM_SAMPLES_CARRIER S + n
            + (MINUTE_MARKER_LOOKUP_BUFFER_SIZE_IN_NUM_ELEMENTS S - LOOKBACK_TOTAL S))
            % MINUTE_MARKER_LOOKUP_BUFFER_SIZE_IN_NUM_ELEMENTS S
          = MINUTE_MARKER_LOOKUP_BUFFER_SIZE_IN_NUM_ELEMENTS S
            - MINUTE_MARKER_NUM_SAMPLES_SILENCE S + n := by
        rw [Nat.mod_eq_of_lt (by omega)]
        omega
      rw [hpos, hb _ (by omega), if_neg (by omega)]
    rw [hstep]
    refine ⟨?_, ?_, ?_, ?_, ?_⟩
    · rw [update_fst_buffer, writeBit_length, hl]
    · rw [update_fst_head, hh, if_neg (by omega)]
      omega
    · rw [update_fst_carrier, hsls, hslc, hc]
      simp
    · rw [update_fst_silence, hsls, hs]
      simp
    · intro q hq
      rw [update_fst_buffer,
        readBit_writeBit _ _ _ _ (by rw [hl]; omega), hh]
      by_cases hqh : q = MINUTE_MARKER_NUM_SAMPLES_CARRIER S + n
      · rw [if_pos hqh, if_pos (by omega)]
      · rw [if_neg hqh, hb q hq]
        by_cases hcond : MINUTE_MARKER_NUM_SAMPLES_CARRIER S ≤ q
            ∧ q < MINUTE_MARKER_NUM_SAMPLES_CARRIER S + n
        · rw [if_pos hcond, if_pos (by omega)]
        · rw [if_neg hcond, if_neg (by omega)]

/-- C6: for any sample period in [1, 100], immediately after
`rollingBufferSetupAndCleanup`, feeding SAMPLES_CARRIER carrier samples and
then SAMPLES_SILENCE silence samples makes the last `updateRollingBuffer`
call return confidence LOOKBACK. -/
theorem scorer_perfect_marker_feed (S : Nat) (h1 : 1 ≤ S) (h2 : S ≤ 100) :
    (syncScan S (List.replicate (MINUTE_MARKER_NUM_SAMPLES_CARRIER S) true
        ++ List.replicate (MINUTE_MARKER_NUM_SAMPLES_SILENCE S) false)).2
      = (LOOKBACK_TOTAL S : Int) := by
  obtain ⟨hSCc, hSSc, hLBc⟩ := consts_in_range S h1 h2
  have hSC : 1 ≤ MINUTE_MARKER_NUM_SAMPLES_CARRIER S := by omega
  have hSS : 1 ≤ MINUTE_MARKER_NUM_SAMPLES_SILENCE S := by omega
  have hSSC : MINUTE_MARKER_NUM_SAMPLES_SILENCE S
      ≤ MINUTE_MARKER_NUM_SAMPLES_CARRIER S := Nat.div_le_div_right (by norm_num)
  have hLBe : LOOKBACK_TOTAL S
      = MINUTE_MARKER_NUM_SAMPLES_CARRIER S + MINUTE_MARKER_NUM_SAMPLES_SILENCE S := rfl
  have hLBlt : LOOKBACK_TOTAL S < MINUTE_MARKER_LOOKUP_BUFFER_SIZE_IN_NUM_ELEMENTS S := by
    omega
  have hN0 : 0 < MINUTE_MARKER_LOOKUP_BUFFER_SIZE_IN_NUM_ELEMENTS S := by omega
  have hby := bytes_bound S
  obtain ⟨hl, hh, hc, hs, hb⟩ := syncScan_phase2 S hSC hSS hSSC hLBlt
    (MINUTE_MARKER_NUM_SAMPLES_SILENCE S - 1) (by omega)
  have hdecomp : List.replicate (MINUTE_MARKER_NUM_SAMPLES_SILENCE S) false
      = List.replicate (MINUTE_MARKER_NUM_SAMPLES_SILENCE S - 1) false ++ [false] := by
    conv_lhs => rw [show MINUTE_MARKER_NUM_SAMPLES_SILENCE S
      = (MINUTE_MARKER_NUM_SAMPLES_SILENCE S - 1) + 1 from by omega]
    rw [List.replicate_succ']
  have hstep : syncScan S (List.replicate (MINUTE_MARKER_NUM_SAMPLES_CARRIER S) true
        ++ List.replicate (MINUTE_MARKER_NUM_SAMPLES_SILENCE S) false)
      = updateRollingBuffer S
          (syncScan S (List.replicate (MINUTE_MARKER_NUM_SAMPLES_CARRIER S) true
            ++ List.replicate (MINUTE_MARKER_NUM_SAMPLES_SILENCE S - 1) false)).1 false := by
    unfold syncScan
    rw [hdecomp, ← List.append_assoc, List.foldl_append]
    rfl
  have hhN : (syncScan S (List.replicate (MINUTE_MARKER_NUM_SAMPLES_CARRIER S) true
        ++ List.replicate (MINUTE_MARKER_NUM_SAMPLES_SILENCE S - 1) false)).1.rollingBufferHead
      < MINUTE_MARKER_LOOKUP_BUFFER_SIZE_IN_NUM_ELEMENTS S := by
    rw [hh]; omega
  have hsls : sampleLeavingSilence S
      (syncScan S (List.replicate (MINUTE_MARKER_NUM_SAMPLES_CARRIER S) true
        ++ List.replicate (MINUTE_MARKER_NUM_SAMPLES_SILENCE S - 1) false)).1 = true := by
    rw [sampleLeavingSilence_char S _ hhN (by omega), hh]
    have hpos : (MINUTE_MARKER_NUM_SAMPLES_CARRIER S
          + (MINUTE_MARKER_NUM_SAMPLES_SILENCE S - 1)
          + (MINUTE_MARKER_LOOKUP_BUFFER_SIZE_IN_NUM_ELEMENTS S
              - MINUTE_MARKER_NUM_SAMPLES_SILENCE S))
          % MINUTE_MARKER_LOOKUP_BUFFER_SIZE_IN_NUM_ELEMENTS S
        = MINUTE_MARKER_NUM_SAMPLES_CARRIER S - 1 := by
      have he : MINUTE_MARKER_NUM_SAMPLES_CARRIER S
            + (MINUTE_MARKER_NUM_SAMPLES_SILENCE S - 1)
            + (MINUTE_MARKER_LOOKUP_BUFFER_SIZE_IN_NUM_ELEMENTS S
                - MINUTE_MARKER_NUM_SAMPLES_SILENCE S)
          = MINUTE_MARKER_LOOKUP_BUFFER_SIZE_IN_NUM_ELEMENTS S
            + (MINUTE_MARKER_NUM_SAMPLES_CARRIER S - 1) := by omega
      rw [he, Nat.add_mod_left, Nat.mod_eq_of_lt (by omega)]
    rw [hpos, hb _ (by omega), if_neg (by omega)]
  have hslc : sampleLeavingCarrier S
      (syncScan S (List.replicate (MINUTE_MARKER_NUM_SAMPLES_CARRIER S) true
        ++ List.replicate (MINUTE_MARKER_NUM_SAMPLES_SILENCE S - 1) false)).1 = true := by
    rw [sampleLeavingCarrier_char S _ hhN (by omega), hh]
    have hpos : (MINUTE_MARKER_NUM_SAMPLES_CARRIER S
          + (MINUTE_MARKER_NUM_SAMPLES_SILENCE S - 1)
          + (MINUTE_MARKER_LOOKUP_BUFFER_SIZE_IN_NUM_ELEMENTS S - LOOKBACK_TOTAL S))
          % MINUTE_MARKER_LOOKUP_BUFFER_SIZE_IN_NUM_ELEMENTS S
        = MINUTE_MARKER_LOOKUP_BUFFER_SIZE_IN_NUM_ELEMENTS S - 1 := by
      rw [Nat.mod_eq_of_lt (by omega)]
      omega
    rw [hpos, hb _ (by omega), if_neg (by omega)]
  rw [hstep, update_snd, update_fst_carrier, update_fst_silence, hsls, hslc, hc, hs]
  simp only [if_pos, if_neg]
  simp
  omega

/-- Witness for C6 at S = 10. -/
theorem scorer_perfect_marker_feed_witness :
    (syncScan 10 (List.replicate (MINUTE_MARKER_NUM_SAMPLES_CARRIER 10) true
        ++ List.replicate (MINUTE_MARKER_NUM_SAMPLES_SILENCE 10) false)).2
      = (LOOKBACK_TOTAL 10 : Int) :=
  scorer_perfect_marker_feed 10 (by norm_num) (by norm_num)

/-! ## Best-score tracking of syncToMinuteMarker (MSF-Time-Lib.h lines 251-296)

The 65-second scan loop is abstracted over the sequence of observations it
makes: each sampled score paired with the `millis()` timestamp at which it
was sampled.  `maxScoreSeen` and `timeOfMaxScore` both start at 0 and are
updated whenever a score strictly exceeds the best seen so far. -/

def syncTrack (obs : List (Int × Nat)) : Int × Nat :=
  obs.foldl (fun acc p => if p.1 > acc.1 then (p.1, p.2) else acc) (0, 0)

theorem syncTrack_aux (obs : List (Int × Nat)) :
    ∀ acc : Int × Nat, 0 < acc.1 →
      0 < ((obs.foldl (fun acc p => if p.1 > acc.1 then (p.1, p.2) else acc) acc)).1 ∧
      (((obs.foldl (fun acc p => if p.1 > acc.1 then (p.1, p.2) else acc) acc)).2 = acc.2 ∨
        ((obs.foldl (fun acc p => if p.1 > acc.1 then (p.1, p.2) else acc) acc)).2
          ∈ obs.map Prod.snd) := by
  induction obs with
  | nil => intro acc h; exact ⟨h, Or.inl rfl⟩
  | cons p rest ih =>
    intro acc h
    simp only [List.foldl_cons, List.map_cons]
    by_cases hc : p.1 > acc.1
    · rw [if_pos hc]
      obtain ⟨h1, h2⟩ := ih (p.1, p.2) (by simp only []; omega)
      refine ⟨h1, ?_⟩
      rcases h2 with h2 | h2
      · right; rw [h2]; exact List.mem_cons_self _ _
      · right; exact List.mem_cons_of_mem _ h2
    · rw [if_neg hc]
      obtain ⟨h1, h2⟩ := ih acc h
      refine ⟨h1, ?_⟩
      rcases h2 with h2 | h2
      · left; exact h2
      · right; exact List.mem_cons_of_mem _ h2

/-- C10: the first sample fed after a reset returns
SAMPLES_CARRIER + (1 if the sample is silence else 0), which is strictly
positive; hence in any scan that takes at least one sample the tracked best
score ends strictly positive and timeOfMaxScore is the timestamp of some
sample, so the "bestScore still 0 after 65 s" underflow case of
`timeOfMaxScore - 500` is unreachable. -/
theorem first_sample_score_positive (S : Nat) (h1 : 1 ≤ S) (h2 : S ≤ 100) (v : Bool) :
    (updateRollingBuffer S (rollingBufferSetupAndCleanup S) v).2
        = (MINUTE_MARKER_NUM_SAMPLES_CARRIER S : Int) + (if v then 0 else 1) ∧
    0 < (updateRollingBuffer S (rollingBufferSetupAndCleanup S) v).2 ∧
    ∀ (t0 : Nat) (rest : List (Int × Nat)),
      0 < (syncTrack (((updateRollingBuffer S (rollingBufferSetupAndCleanup S) v).2, t0)
            :: rest)).1 ∧
      ((syncTrack (((updateRollingBuffer S (rollingBufferSetupAndCleanup S) v).2, t0)
            :: rest)).2 = t0 ∨
        (syncTrack (((updateRollingBuffer S (rollingBufferSetupAndCleanup S) v).2, t0)
            :: rest)).2 ∈ rest.map Prod.snd) := by
  obtain ⟨hSCc, hSSc, hLBc⟩ := consts_in_range S h1 h2
  have hLBe : LOOKBACK_TOTAL S
      = MINUTE_MARKER_NUM_SAMPLES_CARRIER S + MINUTE_MARKER_NUM_SAMPLES_SILENCE S := rfl
  have hN0 : 0 < MINUTE_MARKER_LOOKUP_BUFFER_SIZE_IN_NUM_ELEMENTS S := by omega
  have hby := bytes_bound S
  have hh0 : (rollingBufferSetupAndCleanup S).rollingBufferHead
      < MINUTE_MARKER_LOOKUP_BUFFER_SIZE_IN_NUM_ELEMENTS S := hN0
  have hsls : sampleLeavingSilence S (rollingBufferSetupAndCleanup S) = true := by
    rw [sampleLeavingSilence_char S _ hh0 (by omega)]
    apply readBit_replicate_255
    have := Nat.mod_lt ((rollingBufferSetupAndCleanup S).rollingBufferHead
        + (MINUTE_MARKER_LOOKUP_BUFFER_SIZE_IN_NUM_ELEMENTS S
            - MINUTE_MARKER_NUM_SAMPLES_SILENCE S)) hN0
    omega
  have hslc : sampleLeavingCarrier S (rollingBufferSetupAndCleanup S) = true := by
    rw [sampleLeavingCarrier_char S _ hh0 (by omega)]
    apply readBit_replicate_255
    have := Nat.mod_lt ((rollingBufferSetupAndCleanup S).rollingBufferHead
        + (MINUTE_MARKER_LOOKUP_BUFFER_SIZE_IN_NUM_ELEMENTS S - LOOKBACK_TOTAL S)) hN0
    omega
  have hscore : (updateRollingBuffer S (rollingBufferSetupAndCleanup S) v).2
      = (MINUTE_MARKER_NUM_SAMPLES_CARRIER S : Int) + (if v then 0 else 1) := by
    rw [update_snd, update_fst_carrier, update_fst_silence, hsls, hslc]
    show ((MINUTE_MARKER_NUM_SAMPLES_CARRIER S : Int) + 1) - 1
        + (if v = false then (0 : Int) + 1 else 0) = _
    rcases v <;> simp
  have hpos : 0 < (updateRollingBuffer S (rollingBufferSetupAndCleanup S) v).2 := by
    rw [hscore]
    rcases v <;> simp <;> omega
  refine ⟨hscore, hpos, ?_⟩
  intro t0 rest
  unfold syncTrack
  simp only [List.foldl_cons]
  rw [if_pos (show ((updateRollingBuffer S (rollingBufferSetupAndCleanup S) v).2, t0).1
      > ((0 : Int), (0 : Nat)).1 from hpos)]
  exact syncTrack_aux rest _ hpos

/-- Witness for C10 at S = 10 with a carrier first sample. -/
theorem first_sample_score_positive_witness :
    (updateRollingBuffer 10 (rollingBufferSetupAndCleanup 10) true).2
        = (MINUTE_MARKER_NUM_SAMPLES_CARRIER 10 : Int) + (if true then 0 else 1) ∧
    0 < (updateRollingBuffer 10 (rollingBufferSetupAndCleanup 10) true).2 ∧
    (0 < (syncTrack [((updateRollingBuffer 10 (rollingBufferSetupAndCleanup 10) true).2,
          5)]).1 ∧
      ((syncTrack [((updateRollingBuffer 10 (rollingBufferSetupAndCleanup 10) true).2,
            5)]).2 = 5 ∨
        (syncTrack [((updateRollingBuffer 10 (rollingBufferSetupAndCleanup 10) true).2,
            5)]).2 ∈ ([] : List (Int × Nat)).map Prod.snd)) := by
  have h := first_sample_score_positive 10 (by norm_num) (by norm_num) true
  exact ⟨h.1, h.2.1, h.2.2 5 []⟩
